import Mathlib

/-!
Verification of the reconciliation and classification engine of
`src/analysis.py` (break-time discrepancy analysis).

The development shallowly embeds the core pipeline functions
(`_split_camelcase`, `_name_tokens`, `_token_matches`, `_overlap_score`,
`match_employees`, `calculate_discrepancies`, `build_script`, and the
sort/orchestration part of `run_analysis`).  The spreadsheet parsers
(`parse_adp`, `parse_amazon`) and the Excel/Streamlit rendering are
out-of-scope adapters; the core is modelled from the point where both
sources have been parsed into normalized records.

Modelling conventions:
* pandas rows become Lean structures; missing values (`None`/`NaN`)
  become `Option`.
* A `MatchedRecord` keeps the two source sides as `Option` sub-records;
  this mirrors the merged dict rows of `match_employees`, where a side
  is either copied wholesale or all of its fields are `None`.
* Minute values are exact rationals.  Python's `round(x, n)` and the
  `:.0f` format are modelled as exact round-half-to-even on rationals;
  no claim below depends on an IEEE-754 representation artifact.
* Python `f"{x:.0f}"` renders a missing (`NaN`) float as `"nan"`, which
  `fmt0` reproduces for `none`.
* `DataFrame.sort_values` on several keys is a stable lexicographic
  sort with missing keys placed last (`na_position='last'`); it is
  embedded as `List.insertionSort` by the corresponding total preorder.
* In-place column assignment (`df[col] = ...`) is modelled explicitly
  for the frame-mutation claim by a `Frame` type that records which
  columns an object carries; see the `Frame` section below.
-/

/-! ### Python numeric primitives -/

/-- Round a rational to the nearest integer, ties to even
(Python's `round` / `format` rounding mode). -/
def rheInt (q : ℚ) : ℤ :=
  let f : ℤ := ⌊q⌋
  let r : ℚ := q - f
  if r < 1/2 then f
  else if 1/2 < r then f + 1
  else if 2 ∣ f then f else f + 1

/-- Python `round(q, n)` on exact rationals. -/
def pyRound (q : ℚ) (n : ℕ) : ℚ :=
  (rheInt (q * 10 ^ n) : ℚ) / 10 ^ n

/-- Python `f"{x:.0f}"`: nearest-integer rendering, `"nan"` when the
value is missing. -/
def fmt0 : Option ℚ → String
  | none => "nan"
  | some q => toString (rheInt q)

/-! ### Name tokenizer and similarity scorer
(`_split_camelcase`, `_name_tokens`, `_token_matches`, `_overlap_score`) -/

/-- Python `\s` on the characters the engine meets (ASCII whitespace). -/
def pyIsSpace (c : Char) : Bool :=
  c = ' ' || c = '\t' || c = '\n' || c = '\x0d' || c = '\x0b' || c = '\x0c'

/-- Python `str.strip()`. -/
def pyStrip (l : List Char) : List Char :=
  ((l.dropWhile pyIsSpace).reverse.dropWhile pyIsSpace).reverse

/-- `re.sub(r"([a-z])([A-Z])", r"\1 \2", s)`: insert a space at every
lowercase→uppercase boundary (matches are non-overlapping, and the
second matched character is uppercase, so it can never start the next
match; the plain left-to-right scan below is therefore equivalent). -/
def camelSub : List Char → List Char
  | c1 :: c2 :: rest =>
    if c1.isLower && c2.isUpper then c1 :: ' ' :: camelSub (c2 :: rest)
    else c1 :: camelSub (c2 :: rest)
  | l => l

/-- `_split_camelcase` from `src/analysis.py`. -/
def _split_camelcase (l : List Char) : List Char :=
  pyStrip (camelSub l)

/-- Split on whitespace runs, dropping empty pieces (Python `str.split()`). -/
def splitWsAux : List Char → List Char → List (List Char)
  | [], acc => if acc.isEmpty then [] else [acc.reverse]
  | c :: cs, acc =>
    if pyIsSpace c then
      if acc.isEmpty then splitWsAux cs [] else acc.reverse :: splitWsAux cs []
    else splitWsAux cs (c :: acc)

def splitWs (l : List Char) : List (List Char) :=
  splitWsAux l []

/-- `_name_tokens` from `src/analysis.py`: camel-case split, strip all
characters that are not ASCII letters or whitespace, lower-case, split
on whitespace, keep tokens longer than one character, as a set. -/
def _name_tokens (name : String) : Finset String :=
  let s1 := _split_camelcase name.data
  let s2 := s1.map (fun c => if c.isAlpha || pyIsSpace c then c else ' ')
  let s3 := s2.map Char.toLower
  (((splitWs s3).filter (fun w => 1 < w.length)).map (fun w => String.mk w)).toFinset

/-- Does the second list start with the first one? -/
def listStarts : List Char → List Char → Bool
  | [], _ => true
  | _ :: _, [] => false
  | a :: as, b :: bs => a = b && listStarts as bs

/-- Python substring test `a in b` on character lists. -/
def listSub (a b : List Char) : Bool :=
  match b with
  | [] => a.isEmpty
  | _ :: bs => listStarts a b || listSub a bs

/-- Python substring test `a in b` on strings. -/
def strSub (a b : String) : Bool :=
  listSub a.data b.data

/-- `_token_matches` from `src/analysis.py`: how many tokens of `ta`
are a substring of some token of `tb` or contain one. -/
def _token_matches (ta tb : Finset String) : ℕ :=
  (ta.filter (fun a => ∃ b ∈ tb, (strSub a b || strSub b a) = true)).card

/-- `_overlap_score` from `src/analysis.py`. -/
def _overlap_score (na nb : String) : ℚ :=
  let ta := _name_tokens na
  let tb := _name_tokens nb
  if ta = ∅ ∨ tb = ∅ then 0
  else (_token_matches ta tb : ℚ) / (max ta.card tb.card : ℚ)

/-! ### Data model -/

/-- A normalized ADP (source A) break record, as produced by the
out-of-scope `parse_adp` adapter. -/
structure AdpRecord where
  adp_name : String
  adp_break_start : Option String
  adp_break_end : Option String
  adp_break_minutes : Option ℚ
deriving DecidableEq, Repr

/-- A normalized Amazon (source B) break record, as produced by the
out-of-scope `parse_amazon` adapter. -/
structure AmzRecord where
  amz_name : String
  transporter_id : Option String
  amz_break_start : Option String
  amz_break_end : Option String
  amz_break_minutes : Option ℚ
deriving DecidableEq, Repr

/-- A row of the merged frame built by `match_employees`.  The Python
code merges the two row dicts (or fills one side with `None`s); here
the present side is kept as a sub-record. -/
structure MatchedRecord where
  adp : Option AdpRecord
  amz : Option AmzRecord
  match_score : ℚ
deriving DecidableEq, Repr

/-- `row.get("adp_name")` on a merged row. -/
def adpNameOf (m : MatchedRecord) : Option String := m.adp.map (·.adp_name)

/-- `row.get("amz_name")` on a merged row. -/
def amzNameOf (m : MatchedRecord) : Option String := m.amz.map (·.amz_name)

/-- `row.get("adp_break_minutes")` on a merged row. -/
def adpMinOf (m : MatchedRecord) : Option ℚ := m.adp.bind (·.adp_break_minutes)

/-- `row.get("amz_break_minutes")` on a merged row. -/
def amzMinOf (m : MatchedRecord) : Option ℚ := m.amz.bind (·.amz_break_minutes)

/-! ### Employee matcher (`match_employees`) -/

/-- Similarity of an ADP row against an Amazon row
(`_overlap_score(adp_row["adp_name"], amz_row["amz_name"])`). -/
def scoreOf (a : AdpRecord) (b : AmzRecord) : ℚ :=
  _overlap_score a.adp_name b.amz_name

/-- The inner loop of `match_employees`: run over the Amazon rows with
their indices, keeping the best score seen so far, updating only on a
strictly greater score (`if score > best_score`).  The accumulator
starts at `(0, none)`. -/
def bestLoop (a : AdpRecord) : List AmzRecord → ℕ → ℚ × Option ℕ → ℚ × Option ℕ
  | [], _, acc => acc
  | b :: bs, i, acc =>
    bestLoop a bs (i + 1) (if acc.1 < scoreOf a b then (scoreOf a b, some i) else acc)

/-- One iteration of the outer loop of `match_employees`: the emitted
row together with the index added to `used_amz` (if any). -/
def matchRow (amazon_df : List AmzRecord) (a : AdpRecord) : MatchedRecord × Option ℕ :=
  let best := bestLoop a amazon_df 0 (0, none)
  match best.2 with
  | some i =>
    if 33/100 ≤ best.1 then
      ({ adp := some a, amz := amazon_df[i]?, match_score := pyRound best.1 2 }, some i)
    else
      ({ adp := some a, amz := none, match_score := 0 }, none)
  | none => ({ adp := some a, amz := none, match_score := 0 }, none)

/-- `match_employees` from `src/analysis.py`: process each ADP row in
order, then append one unmatched row for every Amazon row whose index
was never added to `used_amz`. -/
def match_employees (adp_df : List AdpRecord) (amazon_df : List AmzRecord) :
    List MatchedRecord :=
  let pairs := adp_df.map (matchRow amazon_df)
  let used := pairs.filterMap Prod.snd
  pairs.map Prod.fst ++
    ((amazon_df.enum.filter (fun p => decide (p.1 ∉ used))).map
      (fun p => { adp := none, amz := some p.2, match_score := 0 }))

/-! ### Discrepancy classifier (`calculate_discrepancies`) -/

/-- The `_diff` row function: `round(amz - adp, 1)` when both minute
values are present, otherwise missing. -/
def _diff (m : MatchedRecord) : Option ℚ :=
  match amzMinOf m, adpMinOf m with
  | some a, some b => some (pyRound (a - b) 1)
  | _, _ => none

/-- The `_severity` row function.  When both minute values are present
the source reads `abs(row["diff_minutes"])`, whose value at that row is
`round(amz - adp, 1)`. -/
def _severity (m : MatchedRecord) : String :=
  match amzMinOf m, adpMinOf m with
  | some a, some b =>
    let d := |pyRound (a - b) 1|
    if d ≤ 1 then "Match"
    else if d ≤ 5 then "Minor"
    else if d ≤ 15 then "Moderate"
    else "Major"
  | _, _ => "Missing Entry"

/-- The `_direction` row function. -/
def _direction (m : MatchedRecord) : String :=
  if _severity m = "Missing Entry" then "Warning Missing"
  else
    match _diff m with
    | none => "-"
    | some d => if |d| ≤ 1 then "Match" else if 0 < d then "Amazon > ADP" else "ADP > Amazon"

/-- A classified row: the merged row extended with the four columns
added by `calculate_discrepancies`. -/
structure DiscRecord where
  m : MatchedRecord
  diff_minutes : Option ℚ
  severity : String
  direction : String
  needs_action : Bool
deriving DecidableEq, Repr

/-- The per-row content of `calculate_discrepancies`. -/
def classifyRow (m : MatchedRecord) : DiscRecord :=
  { m := m
    diff_minutes := _diff m
    severity := _severity m
    direction := _direction m
    needs_action := decide (_severity m ∈ ["Minor", "Moderate", "Major", "Missing Entry"]) }

/-- `calculate_discrepancies` from `src/analysis.py`, as a row-wise
function (its in-place behaviour is modelled separately by `Frame`). -/
def calculate_discrepancies (df : List MatchedRecord) : List DiscRecord :=
  df.map classifyRow

/-! ### Conversation scripts (`build_script`) -/

/-- Python truthiness of an optional string (`None` and `""` are falsy). -/
def pyTruthy : Option String → Option String
  | none => none
  | some s => if s = "" then none else some s

/-- `row.get("adp_name") or row.get("amz_name") or "Employee"`. -/
def empName (m : MatchedRecord) : String :=
  match pyTruthy (adpNameOf m) with
  | some s => s
  | none =>
    match pyTruthy (amzNameOf m) with
    | some s => s
    | none => "Employee"

/-- Python `diff > 0` where `diff` may be missing (`NaN > 0` is false). -/
def diffPos : Option ℚ → Bool
  | none => false
  | some d => decide (0 < d)

/-- `build_script` from `src/analysis.py`. -/
def build_script (r : DiscRecord) : String :=
  let emp := empName r.m
  let aM := amzMinOf r.m
  let bM := adpMinOf r.m
  let diff := r.diff_minutes
  if r.severity = "Match" then
    "No action needed - break times match."
  else if r.severity = "Missing Entry" then
    if aM.isNone then
      "Hi " ++ emp ++ ", I see you have a break logged in ADP (" ++ fmt0 bM ++
        " min) but we have no record in the Amazon Delivery App. " ++
        "Did you log your break in the app today? Please update it before end of day."
    else
      "Hi " ++ emp ++ ", we have your break in the Amazon app (" ++ fmt0 aM ++
        " min) but there is no matching entry in ADP. " ++
        "Can you log your break in ADP before 5 PM today?"
  else
    let longer := if diffPos diff then "Amazon app" else "ADP"
    let shorter := if diffPos diff then "ADP" else "Amazon app"
    "Hi " ++ emp ++ ", we noticed a discrepancy in your break times today - your " ++
      longer ++ " shows " ++ fmt0 (diff.map (|·|)) ++ " more minutes than your " ++
      shorter ++ ". Amazon recorded " ++ fmt0 aM ++ " min and ADP recorded " ++
      fmt0 bM ++ " min. Please review both entries and correct whichever is inaccurate by end of day."

/-! ### Orchestrator (`run_analysis`) -/

/-- The `sev_order` map of `run_analysis`, with `fillna(5)`. -/
def sevRank (s : String) : ℕ :=
  if s = "Major" then 0
  else if s = "Moderate" then 1
  else if s = "Minor" then 2
  else if s = "Missing Entry" then 3
  else if s = "Match" then 4
  else 5

def rankOf (d : DiscRecord) : ℕ := sevRank d.severity

/-- The second sort key: the `adp_name` column of the row (missing for
Amazon-only rows). -/
def sortName (d : DiscRecord) : Option String := adpNameOf d.m

/-- Ordering on an optional sort key with missing values last
(pandas `na_position='last'`). -/
def optLe : Option String → Option String → Prop
  | _, none => True
  | none, some _ => False
  | some s, some t => s ≤ t

instance : DecidableRel optLe := by
  intro a b
  cases a <;> cases b <;> simp only [optLe] <;> infer_instance

/-- The total preorder used by `result.sort_values(["_sort", "adp_name"])`. -/
def rowLe (d₁ d₂ : DiscRecord) : Prop :=
  rankOf d₁ < rankOf d₂ ∨ (rankOf d₁ = rankOf d₂ ∧ optLe (sortName d₁) (sortName d₂))

instance : DecidableRel rowLe := by
  intro a b
  unfold rowLe
  infer_instance

/-- A fully processed output row: the sorted classified row plus its
`conversation_script` column. -/
structure OutRow where
  disc : DiscRecord
  conversation_script : String
deriving DecidableEq, Repr

/-- The core of `run_analysis` from `src/analysis.py`, starting from
the two parsed record lists: match, classify, stable-sort by
(severity rank, ADP name), then add the script column. -/
def run_analysis_core (adp_df : List AdpRecord) (amazon_df : List AmzRecord) :
    List OutRow :=
  let merged := match_employees adp_df amazon_df
  let result := calculate_discrepancies merged
  let sorted := result.insertionSort rowLe
  sorted.map (fun d => { disc := d, conversation_script := build_script d })

/-! ### Machine-level script formatting (column dtypes made explicit)

pandas infers the dtype of each column of the merged frame when
`pd.DataFrame(matches)` is built: a minutes column is `float64`
(missing values become `NaN`) as soon as some row carries a numeric
value, and `object` (missing values stay `None`) otherwise.
`f"{x:.0f}"` renders `NaN` as `"nan"` but raises `TypeError` for
`None`, and `None > 0` / `abs(None)` raise as well.  The `_px`
variants below make the dtypes explicit and return `Except`, modelling
where `build_script` can raise; `fmt0`/`build_script` above are the
`float64` (never-raising) behaviour. -/

instance {e a : Type} [DecidableEq e] [DecidableEq a] : DecidableEq (Except e a) :=
  fun x y =>
  match x, y with
  | .error u, .error v =>
    decidable_of_iff (u = v) ⟨fun h => h ▸ rfl, fun h => by injection h⟩
  | .ok u, .ok v =>
    decidable_of_iff (u = v) ⟨fun h => h ▸ rfl, fun h => by injection h⟩
  | .error _, .ok _ => isFalse (fun h => by injection h)
  | .ok _, .error _ => isFalse (fun h => by injection h)

/-- Is the `adp_break_minutes` column of the merged frame `float64`? -/
def adpColFloat (df : List MatchedRecord) : Bool :=
  df.any (fun m => (adpMinOf m).isSome)

/-- Is the `amz_break_minutes` column of the merged frame `float64`? -/
def amzColFloat (df : List MatchedRecord) : Bool :=
  df.any (fun m => (amzMinOf m).isSome)

/-- Is the `diff_minutes` column of the classified frame `float64`? -/
def diffColFloat (df : List DiscRecord) : Bool :=
  df.any (fun d => d.diff_minutes.isSome)

/-- `f"{x:.0f}"` with the column dtype explicit: a missing value
renders as `"nan"` in a `float64` column and raises in an `object`
column (the exception message abbreviates Python's). -/
def fmt0px (colFloat : Bool) : Option ℚ → Except String String
  | some q => .ok (toString (rheInt q))
  | none =>
    if colFloat then .ok "nan"
    else .error "TypeError: unsupported format string passed to NoneType.__format__"

/-- `build_script` with the frame's column dtypes explicit, returning
an error exactly where the Python code would raise. -/
def build_script_px (adpF amzF diffF : Bool) (r : DiscRecord) : Except String String :=
  let emp := empName r.m
  let aM := amzMinOf r.m
  let bM := adpMinOf r.m
  let diff := r.diff_minutes
  if r.severity = "Match" then .ok "No action needed - break times match."
  else if r.severity = "Missing Entry" then
    if aM.isNone then
      match fmt0px adpF bM with
      | .error e => .error e
      | .ok s =>
        .ok ("Hi " ++ emp ++ ", I see you have a break logged in ADP (" ++ s ++
          " min) but we have no record in the Amazon Delivery App. " ++
          "Did you log your break in the app today? Please update it before end of day.")
    else
      match fmt0px amzF aM with
      | .error e => .error e
      | .ok s =>
        .ok ("Hi " ++ emp ++ ", we have your break in the Amazon app (" ++ s ++
          " min) but there is no matching entry in ADP. " ++
          "Can you log your break in ADP before 5 PM today?")
  else
    if diff.isNone && !diffF then
      .error "TypeError: unsupported comparison of NoneType and int"
    else
      match fmt0px diffF (diff.map (|·|)), fmt0px amzF aM, fmt0px adpF bM with
      | .ok sd, .ok sa, .ok sb =>
        let longer := if diffPos diff then "Amazon app" else "ADP"
        let shorter := if diffPos diff then "ADP" else "Amazon app"
        .ok ("Hi " ++ emp ++ ", we noticed a discrepancy in your break times today - your " ++
          longer ++ " shows " ++ sd ++ " more minutes than your " ++ shorter ++
          ". Amazon recorded " ++ sa ++ " min and ADP recorded " ++ sb ++
          " min. Please review both entries and correct whichever is inaccurate by end of day.")
      | .error e, _, _ => .error e
      | _, .error e, _ => .error e
      | _, _, .error e => .error e

/-- The core of `run_analysis` at machine level: the script column is
built row by row in sorted order, and the first raising row aborts the
run. -/
def run_analysis_px (adp_df : List AdpRecord) (amazon_df : List AmzRecord) :
    Except String (List OutRow) :=
  let merged := match_employees adp_df amazon_df
  let result := calculate_discrepancies merged
  let sorted := result.insertionSort rowLe
  sorted.mapM (fun d =>
    (build_script_px (adpColFloat merged) (amzColFloat merged) (diffColFloat result) d).map
      (fun s => { disc := d, conversation_script := s }))

/-! ### Object-level frame model (for the in-place mutation claim)

`calculate_discrepancies` does not build a new DataFrame: it assigns
the four new columns into its argument (`df["diff_minutes"] = ...`,
..., `df["needs_action"] = ...`) and then returns that same object.
`run_analysis` then assigns the `_sort` column into that object as
well, and only `sort_values` produces a fresh frame (which later
receives the `conversation_script` column).  A `Frame` records the
value of one DataFrame object: its merged rows plus which derived
columns have been assigned so far. -/

structure Frame where
  rows : List MatchedRecord
  diff_col : Option (List (Option ℚ))
  severity_col : Option (List String)
  direction_col : Option (List String)
  needs_action_col : Option (List Bool)
  sort_col : Option (List ℕ)
deriving DecidableEq, Repr

/-- The DataFrame object returned by `match_employees`: merged rows
only, no derived columns yet. -/
def matchFrame (adp_df : List AdpRecord) (amazon_df : List AmzRecord) : Frame :=
  { rows := match_employees adp_df amazon_df
    diff_col := none, severity_col := none, direction_col := none
    needs_action_col := none, sort_col := none }

/-- The effect of `calculate_discrepancies` on the frame object passed
to it: the four derived columns are assigned in place.  The function
returns this same object, so after `result = calculate_discrepancies(merged)`
both `result` and `merged` denote this frame. -/
def calcFrame (f : Frame) : Frame :=
  let d := calculate_discrepancies f.rows
  { f with
    diff_col := some (d.map (·.diff_minutes))
    severity_col := some (d.map (·.severity))
    direction_col := some (d.map (·.direction))
    needs_action_col := some (d.map (·.needs_action)) }

/-- The effect of `result["_sort"] = result["severity"].map(sev_order).fillna(5)`
on the frame object (still the object returned by the matcher). -/
def addSortCol (f : Frame) : Frame :=
  let d := calculate_discrepancies f.rows
  { f with sort_col := some (d.map rankOf) }

/-- The value of the matcher's output object after `run_analysis`
returns: `calculate_discrepancies` assigned the four classification
columns into it and returned the very same object, after which the
`_sort` column was assigned into it too; `sort_values` then produced a
fresh frame, so the remaining steps leave this object untouched. -/
def merged_after_run (adp_df : List AdpRecord) (amazon_df : List AmzRecord) : Frame :=
  addSortCol (calcFrame (matchFrame adp_df amazon_df))

/-! ### Claim-side matcher characterization

The definitions below follow the words of the matcher claim (spec
§4.2), to be compared with `match_employees`: the best score is the
maximum similarity over all source-B records, the selected record is
the first one whose score attains that maximum, and a source-B record
is claimed when some source-A record selects it with a score at or
above the threshold. -/

/-- The highest similarity score of an ADP record against all Amazon
records (`0` when there are none). -/
def bestScoreSpec (a : AdpRecord) (amazon_df : List AmzRecord) : ℚ :=
  (amazon_df.map (scoreOf a)).foldr max 0

/-- The index of the first Amazon record attaining the highest score. -/
def bestIdxSpec (a : AdpRecord) (amazon_df : List AmzRecord) : ℕ :=
  amazon_df.findIdx (fun b => decide (bestScoreSpec a amazon_df ≤ scoreOf a b))

/-- An Amazon index is claimed when some ADP record's best score is at
least the threshold and it selects that index. -/
def claimedSpec (adp_df : List AdpRecord) (amazon_df : List AmzRecord) (j : ℕ) : Prop :=
  ∃ a ∈ adp_df, 33/100 ≤ bestScoreSpec a amazon_df ∧ bestIdxSpec a amazon_df = j

instance (adp_df : List AdpRecord) (amazon_df : List AmzRecord) (j : ℕ) :
    Decidable (claimedSpec adp_df amazon_df j) := by
  unfold claimedSpec
  infer_instance

/-- The matcher claim, as a reference function: pair each source-A
record in order with the first best-scoring source-B record when the
best score reaches the threshold (storing the rounded score), emit a
source-A-only record otherwise, then one source-B-only record for
every unclaimed source-B record. -/
def match_spec (adp_df : List AdpRecord) (amazon_df : List AmzRecord) :
    List MatchedRecord :=
  adp_df.map (fun a =>
    if 33/100 ≤ bestScoreSpec a amazon_df then
      { adp := some a, amz := amazon_df[bestIdxSpec a amazon_df]?,
        match_score := pyRound (bestScoreSpec a amazon_df) 2 }
    else { adp := some a, amz := none, match_score := 0 })
  ++ ((amazon_df.enum.filter (fun p => decide (¬ claimedSpec adp_df amazon_df p.1))).map
      (fun p => { adp := none, amz := some p.2, match_score := 0 }))

/-! ### Claim-side sort characterization and concrete records -/

/-- The claim's "employee display name": the source-A name, or the
source-B name when the source-A name is absent. -/
def dispName (d : DiscRecord) : Option String :=
  match adpNameOf d.m with
  | some s => some s
  | none => amzNameOf d.m

/-- The ordering stated by the sort claim: severity rank, then display
name ascending with records lacking a usable name last. -/
def claimRel (d₁ d₂ : DiscRecord) : Prop :=
  rankOf d₁ < rankOf d₂ ∨ (rankOf d₁ = rankOf d₂ ∧ optLe (dispName d₁) (dispName d₂))

instance : DecidableRel claimRel := by
  intro a b
  unfold claimRel
  infer_instance

/-- The sort key actually used by the code: severity rank and the
(optional) ADP name. -/
def keyOf (d : DiscRecord) : ℕ × Option String :=
  (rankOf d, sortName d)

instance : IsTotal DiscRecord rowLe := by
  constructor
  intro a b
  unfold rowLe
  rcases Nat.lt_trichotomy (rankOf a) (rankOf b) with h | h | h
  · exact Or.inl (Or.inl h)
  · rcases hsa : sortName a with _ | s <;> rcases hsb : sortName b with _ | t
    · exact Or.inl (Or.inr ⟨h, trivial⟩)
    · exact Or.inr (Or.inr ⟨h.symm, trivial⟩)
    · exact Or.inl (Or.inr ⟨h, trivial⟩)
    · rcases le_total s t with hst | hst
      · exact Or.inl (Or.inr ⟨h, hst⟩)
      · exact Or.inr (Or.inr ⟨h.symm, hst⟩)
  · exact Or.inr (Or.inl h)

instance : IsTrans DiscRecord rowLe := by
  constructor
  intro a b c hab hbc
  unfold rowLe at *
  rcases hab with h₁ | ⟨h₁, h₁'⟩
  · rcases hbc with h₂ | ⟨h₂, _⟩
    · exact Or.inl (h₁.trans h₂)
    · exact Or.inl (h₂ ▸ h₁)
  · rcases hbc with h₂ | ⟨h₂, h₂'⟩
    · exact Or.inl (h₁ ▸ h₂)
    · refine Or.inr ⟨h₁.trans h₂, ?_⟩
      rcases hsa : sortName a with _ | s <;> rcases hsb : sortName b with _ | t <;>
        rcases hsc : sortName c with _ | u <;>
        simp_all [optLe]
      exact le_trans h₁' h₂'

/-! ### Concrete records used by witnesses and counterexamples -/

def zedAdp : AdpRecord :=
  { adp_name := "Zed", adp_break_start := none, adp_break_end := none,
    adp_break_minutes := none }

def aaronAmz : AmzRecord :=
  { amz_name := "Aaron", transporter_id := none, amz_break_start := none,
    amz_break_end := none, amz_break_minutes := none }

def johnAdp : AdpRecord :=
  { adp_name := "John Smith", adp_break_start := none, adp_break_end := none,
    adp_break_minutes := some 20 }

def johnAmz : AmzRecord :=
  { amz_name := "JohnSmith99", transporter_id := some "T123",
    amz_break_start := none, amz_break_end := none, amz_break_minutes := some 30 }

def abcAdp : AdpRecord :=
  { adp_name := "Abc Qrs Xyz", adp_break_start := none, adp_break_end := none,
    adp_break_minutes := none }

def abcAmz : AmzRecord :=
  { amz_name := "Abc", transporter_id := none, amz_break_start := none,
    amz_break_end := none, amz_break_minutes := none }

/-- A matched pair with both minute values present (ADP 20, Amazon 30). -/
def pairBoth : MatchedRecord :=
  { adp := some johnAdp, amz := some johnAmz, match_score := 1 }

/-- A matched pair with equal minute values (ADP 20, Amazon 20). -/
def pairEqual : MatchedRecord :=
  { adp := some { adp_name := "Eq Ual", adp_break_start := none,
                  adp_break_end := none, adp_break_minutes := some 20 }
    amz := some { amz_name := "EqUal7", transporter_id := none,
                  amz_break_start := none, amz_break_end := none,
                  amz_break_minutes := some 20 }
    match_score := 1 }

/-- The merged row the matcher emits for `zedAdp` when no Amazon
record scores at or above the threshold. -/
def zedRow : MatchedRecord := { adp := some zedAdp, amz := none, match_score := 0 }

/-- The pipeline output row for `zedRow`. -/
def zedOut : OutRow :=
  { disc := classifyRow zedRow, conversation_script := build_script (classifyRow zedRow) }

/-! ### Helper lemmas -/

theorem matchRow_fst_adp (amz : List AmzRecord) (a : AdpRecord) :
    ((matchRow amz a).1).adp = some a := by
  rcases h : (bestLoop a amz 0 (0, none)).2 with _ | i <;>
    simp only [matchRow, h]
  split <;> rfl

theorem rheInt_ge_floor (q : ℚ) : ⌊q⌋ ≤ rheInt q := by
  simp only [rheInt]
  split_ifs <;> omega

theorem pyRound2_ge_threshold (q : ℚ) (h : 33/100 ≤ q) : 33/100 ≤ pyRound q 2 := by
  unfold pyRound
  have h1 : (33 : ℤ) ≤ ⌊q * 10 ^ 2⌋ := by
    rw [Int.le_floor]
    push_cast
    linarith
  have h2 : (33 : ℤ) ≤ rheInt (q * 10 ^ 2) := le_trans h1 (rheInt_ge_floor _)
  have h3 : (33 : ℚ) ≤ (rheInt (q * 10 ^ 2) : ℚ) := by exact_mod_cast h2
  have h4 : (0 : ℚ) < 10 ^ 2 := by norm_num
  calc (33 : ℚ)/100 = 33 / 10 ^ 2 := by norm_num
    _ ≤ (rheInt (q * 10 ^ 2) : ℚ) / 10 ^ 2 := by
        exact (div_le_div_iff_of_pos_right h4).mpr h3

theorem matchRow_score (amz : List AmzRecord) (a : AdpRecord) :
    ((matchRow amz a).1).match_score = 0 ∨
      33/100 ≤ ((matchRow amz a).1).match_score := by
  rcases h : (bestLoop a amz 0 (0, none)).2 with _ | i <;>
    simp only [matchRow, h]
  · simp
  · split
    · right
      exact pyRound2_ge_threshold _ (by assumption)
    · simp

/-! ### C5 — in-place mutation of the matcher's output -/

/-- C5 (amended): `calculate_discrepancies` mutates the matcher's
output frame in place — after the pipeline runs, that object holds the
four classification columns and the `_sort` column, so it always
differs from its original value — while the underlying matched row
data is preserved unchanged and each classified row carries its
`MatchedRecord` unmodified. -/
theorem c5_mutation_amended :
    ∀ (adp_df : List AdpRecord) (amazon_df : List AmzRecord),
      (merged_after_run adp_df amazon_df).rows = match_employees adp_df amazon_df ∧
      merged_after_run adp_df amazon_df ≠ matchFrame adp_df amazon_df ∧
      (calculate_discrepancies (match_employees adp_df amazon_df)).map DiscRecord.m =
        match_employees adp_df amazon_df := by
  intro adp_df amazon_df
  refine ⟨rfl, ?_, ?_⟩
  · intro h
    have h2 := congrArg Frame.diff_col h
    simp [merged_after_run, addSortCol, calcFrame, matchFrame] at h2
  · simp only [calculate_discrepancies, List.map_map]
    have hid : DiscRecord.m ∘ classifyRow = id := funext (fun _ => rfl)
    rw [hid, List.map_id]

/-! ### C9 — at least one side present -/

/-- C9: every record emitted by the matcher has at least one side
present; no record with both sides absent is ever constructed. -/
theorem c9_side_present :
    ∀ (adp_df : List AdpRecord) (amazon_df : List AmzRecord) (r : MatchedRecord),
      r ∈ match_employees adp_df amazon_df → r.adp.isSome ∨ r.amz.isSome := by
  intro adp_df amazon_df r hr
  simp only [match_employees, List.mem_append, List.mem_map, List.mem_filter] at hr
  rcases hr with ⟨p, ⟨a, _, rfl⟩, rfl⟩ | ⟨p, _, rfl⟩
  · left
    rw [matchRow_fst_adp]
    rfl
  · right
    rfl

/-! ### C8 — score threshold invariant -/

/-- C8: every record emitted by the matcher has similarity score
exactly `0` (unmatched placeholder) or at least `0.33`; in particular
the stored (rounded) score of a paired record never falls strictly
between `0` and `0.33`. -/
theorem c8_score_threshold :
    ∀ (adp_df : List AdpRecord) (amazon_df : List AmzRecord) (r : MatchedRecord),
      r ∈ match_employees adp_df amazon_df →
      r.match_score = 0 ∨ 33/100 ≤ r.match_score := by
  intro adp_df amazon_df r hr
  simp only [match_employees, List.mem_append, List.mem_map, List.mem_filter] at hr
  rcases hr with ⟨p, ⟨a, _, rfl⟩, rfl⟩ | ⟨p, _, rfl⟩
  · exact matchRow_score amazon_df a
  · left
    rfl

/-! ### C3 — classifier is total and correct -/

theorem severity_both (m : MatchedRecord) (a b : ℚ)
    (ha : amzMinOf m = some a) (hb : adpMinOf m = some b) :
    _severity m =
      (if |pyRound (a - b) 1| ≤ 1 then "Match"
       else if |pyRound (a - b) 1| ≤ 5 then "Minor"
       else if |pyRound (a - b) 1| ≤ 15 then "Moderate"
       else "Major") := by
  simp [_severity, ha, hb]

theorem severity_both_ne_missing (m : MatchedRecord) (a b : ℚ)
    (ha : amzMinOf m = some a) (hb : adpMinOf m = some b) :
    _severity m ≠ "Missing Entry" := by
  rw [severity_both m a b ha hb]
  split_ifs <;> simp

/-- C3: the classifier is a total function with the claimed behaviour:
delta is the rounded difference exactly when both minute values are
present; severity is `Missing Entry` iff a minute value is absent and
otherwise follows the `1`/`5`/`15` absolute-delta tiers; direction is
`Warning Missing` for missing entries and otherwise follows the sign
of the delta; and the needs-action flag holds exactly for the four
non-`Match` severities. -/
theorem c3_classifier :
    ∀ m : MatchedRecord,
      (∀ a b, amzMinOf m = some a → adpMinOf m = some b →
        (classifyRow m).diff_minutes = some (pyRound (a - b) 1)) ∧
      ((amzMinOf m = none ∨ adpMinOf m = none) → (classifyRow m).diff_minutes = none) ∧
      ((classifyRow m).severity = "Missing Entry" ↔
        (amzMinOf m = none ∨ adpMinOf m = none)) ∧
      (∀ v, (classifyRow m).diff_minutes = some v →
        (|v| ≤ 1 → (classifyRow m).severity = "Match") ∧
        (1 < |v| → |v| ≤ 5 → (classifyRow m).severity = "Minor") ∧
        (5 < |v| → |v| ≤ 15 → (classifyRow m).severity = "Moderate") ∧
        (15 < |v| → (classifyRow m).severity = "Major") ∧
        (|v| ≤ 1 → (classifyRow m).direction = "Match") ∧
        (1 < |v| → 0 < v → (classifyRow m).direction = "Amazon > ADP") ∧
        (1 < |v| → v < 0 → (classifyRow m).direction = "ADP > Amazon")) ∧
      ((classifyRow m).severity = "Missing Entry" →
        (classifyRow m).direction = "Warning Missing") ∧
      ((classifyRow m).needs_action = true ↔
        ((classifyRow m).severity = "Minor" ∨ (classifyRow m).severity = "Moderate" ∨
          (classifyRow m).severity = "Major" ∨
          (classifyRow m).severity = "Missing Entry")) := by
  intro m
  rcases ha : amzMinOf m with _ | a <;> rcases hb : adpMinOf m with _ | b
  · refine ⟨?_, ?_, ?_, ?_, ?_, ?_⟩ <;>
      simp [classifyRow, _diff, _severity, _direction, ha, hb]
  · refine ⟨?_, ?_, ?_, ?_, ?_, ?_⟩ <;>
      simp [classifyRow, _diff, _severity, _direction, ha, hb]
  · refine ⟨?_, ?_, ?_, ?_, ?_, ?_⟩ <;>
      simp [classifyRow, _diff, _severity, _direction, ha, hb]
  · have hs := severity_both m a b ha hb
    have hns := severity_both_ne_missing m a b ha hb
    have hsev : (classifyRow m).severity = _severity m := rfl
    have hdir : (classifyRow m).direction = _direction m := rfl
    refine ⟨?_, ?_, ?_, ?_, ?_, ?_⟩
    · intro a' b' ha' hb'
      have ea : a' = a := (Option.some.inj ha').symm
      have eb : b' = b := (Option.some.inj hb').symm
      subst ea
      subst eb
      simp [classifyRow, _diff, ha, hb]
    · simp [ha, hb]
    · constructor
      · intro h
        exact absurd h (by simpa [classifyRow] using hns)
      · simp [ha, hb]
    · intro v hv
      have hv' : v = pyRound (a - b) 1 := by
        simp [classifyRow, _diff, ha, hb] at hv
        exact hv.symm
      subst hv'
      refine ⟨?_, ?_, ?_, ?_, ?_, ?_, ?_⟩
      · intro h1
        rw [hsev, hs, if_pos h1]
      · intro h1 h2
        rw [hsev, hs, if_neg (not_le.mpr h1), if_pos h2]
      · intro h1 h2
        rw [hsev, hs, if_neg (not_le.mpr (by linarith)), if_neg (not_le.mpr h1), if_pos h2]
      · intro h1
        rw [hsev, hs, if_neg (not_le.mpr (by linarith)), if_neg (not_le.mpr (by linarith)),
          if_neg (not_le.mpr h1)]
      · intro h1
        rw [hdir]
        unfold _direction
        rw [if_neg hns]
        simp [_diff, ha, hb, h1]
      · intro h1 h2
        rw [hdir]
        unfold _direction
        rw [if_neg hns]
        simp [_diff, ha, hb, not_le.mpr h1, h2]
      · intro h1 h2
        rw [hdir]
        unfold _direction
        rw [if_neg hns]
        simp [_diff, ha, hb, not_le.mpr h1, not_lt.mpr h2.le]
    · intro h
      exact absurd (by simpa [classifyRow] using h) hns
    · simp only [classifyRow]
      rw [decide_eq_true_eq]
      simp

/-- C3 witness. -/
theorem c3_classifier_witness :
    amzMinOf pairBoth = some 30 ∧ adpMinOf pairBoth = some 20 ∧
      (classifyRow pairBoth).diff_minutes = some (pyRound ((30 : ℚ) - 20) 1) :=
  ⟨rfl, rfl, (c3_classifier pairBoth).1 30 20 rfl rfl⟩

/-! ### C10 — delta absent iff severity MissingEntry -/

theorem classify_diff_none_iff (m : MatchedRecord) :
    (classifyRow m).diff_minutes = none ↔ (classifyRow m).severity = "Missing Entry" := by
  rcases ha : amzMinOf m with _ | a <;> rcases hb : adpMinOf m with _ | b
  · simp [classifyRow, _diff, _severity, ha, hb]
  · simp [classifyRow, _diff, _severity, ha, hb]
  · simp [classifyRow, _diff, _severity, ha, hb]
  · refine iff_of_false ?_ (severity_both_ne_missing m a b ha hb)
    simp [classifyRow, _diff, ha, hb]

theorem classify_direction_ne_dash (m : MatchedRecord) :
    (classifyRow m).direction ≠ "-" := by
  have hd : (classifyRow m).direction = _direction m := rfl
  rw [hd]
  rcases ha : amzMinOf m with _ | a <;> rcases hb : adpMinOf m with _ | b
  · simp [_direction, _severity, ha, hb]
  · simp [_direction, _severity, ha, hb]
  · simp [_direction, _severity, ha, hb]
  · unfold _direction
    rw [if_neg (severity_both_ne_missing m a b ha hb)]
    simp only [_diff, ha, hb]
    split_ifs <;> simp

/-- C10: in every classified record the duration delta is absent
exactly when the severity is `Missing Entry`; consequently the
direction reserved for an absent delta under a non-missing severity
(`"-"`) is never produced, neither by the classifier nor anywhere in
the pipeline output. -/
theorem c10_delta_missing_iff :
    (∀ m : MatchedRecord,
      ((classifyRow m).diff_minutes = none ↔ (classifyRow m).severity = "Missing Entry") ∧
      (classifyRow m).direction ≠ "-") ∧
    (∀ (adp_df : List AdpRecord) (amazon_df : List AmzRecord) (r : OutRow),
      r ∈ run_analysis_core adp_df amazon_df → r.disc.direction ≠ "-") := by
  constructor
  · intro m
    exact ⟨classify_diff_none_iff m, classify_direction_ne_dash m⟩
  · intro adp_df amazon_df r hr
    simp only [run_analysis_core, List.mem_map] at hr
    obtain ⟨d, hd, rfl⟩ := hr
    rw [List.mem_insertionSort] at hd
    simp only [calculate_discrepancies, List.mem_map] at hd
    obtain ⟨m, _, rfl⟩ := hd
    exact classify_direction_ne_dash m

/-! ### C7 — totality and error handling -/

theorem classify_severity_mem (m : MatchedRecord) :
    (classifyRow m).severity = "Match" ∨ (classifyRow m).severity = "Minor" ∨
    (classifyRow m).severity = "Moderate" ∨ (classifyRow m).severity = "Major" ∨
    (classifyRow m).severity = "Missing Entry" := by
  have hs : (classifyRow m).severity = _severity m := rfl
  rw [hs]
  unfold _severity
  rcases amzMinOf m with _ | a <;> rcases adpMinOf m with _ | b <;> dsimp only <;>
    (try split_ifs) <;> simp

theorem classify_direction_mem (m : MatchedRecord) :
    (classifyRow m).direction = "Match" ∨ (classifyRow m).direction = "Amazon > ADP" ∨
    (classifyRow m).direction = "ADP > Amazon" ∨
    (classifyRow m).direction = "Warning Missing" := by
  have hd : (classifyRow m).direction = _direction m := rfl
  rw [hd]
  rcases ha : amzMinOf m with _ | a <;> rcases hb : adpMinOf m with _ | b
  · simp [_direction, _severity, ha, hb]
  · simp [_direction, _severity, ha, hb]
  · simp [_direction, _severity, ha, hb]
  · unfold _direction
    rw [if_neg (severity_both_ne_missing m a b ha hb)]
    simp only [_diff, ha, hb]
    split_ifs <;> simp

theorem classify_severity_missing (m : MatchedRecord)
    (h : amzMinOf m = none ∨ adpMinOf m = none) :
    (classifyRow m).severity = "Missing Entry" := by
  have hs : (classifyRow m).severity = _severity m := rfl
  rw [hs]
  rcases ha : amzMinOf m with _ | a <;> rcases hb : adpMinOf m with _ | b <;>
    simp only [_severity, ha, hb] <;> rcases h with h | h <;> simp_all

theorem ne_empty_of_length (s : String) (h : s.length ≠ 0) : s ≠ "" := by
  intro he
  subst he
  exact h (by decide)

theorem build_script_ne_empty (r : DiscRecord) : build_script r ≠ "" := by
  simp only [build_script]
  split_ifs <;>
    first
      | decide
      | (apply ne_empty_of_length
         simp only [String.length_append]
         have h3 : String.length "Hi " = 3 := by decide
         omega)

/-- Under the `float64` (NaN) column model, the pipeline runs to
completion for every input, producing only the enumerated severities
and directions, absent minute values surface as `Missing Entry`, and a
non-empty script string is produced for every record. -/
theorem pipeline_fields_enumerated :
    ∀ (adp_df : List AdpRecord) (amazon_df : List AmzRecord) (r : OutRow),
      r ∈ run_analysis_core adp_df amazon_df →
      ((r.disc.severity = "Match" ∨ r.disc.severity = "Minor" ∨
        r.disc.severity = "Moderate" ∨ r.disc.severity = "Major" ∨
        r.disc.severity = "Missing Entry") ∧
       (r.disc.direction = "Match" ∨ r.disc.direction = "Amazon > ADP" ∨
        r.disc.direction = "ADP > Amazon" ∨ r.disc.direction = "Warning Missing") ∧
       ((amzMinOf r.disc.m = none ∨ adpMinOf r.disc.m = none) →
         r.disc.severity = "Missing Entry") ∧
       r.conversation_script ≠ "") := by
  intro adp_df amazon_df r hr
  simp only [run_analysis_core, List.mem_map] at hr
  obtain ⟨d, hd, rfl⟩ := hr
  rw [List.mem_insertionSort] at hd
  simp only [calculate_discrepancies, List.mem_map] at hd
  obtain ⟨m, _, rfl⟩ := hd
  exact ⟨classify_severity_mem m, classify_direction_mem m,
    classify_severity_missing m, build_script_ne_empty _⟩

/-! ### C4 — script generation -/

/-- C4: the generated script depends only on the employee names, the
severity, the two minute values and the delta (so it is byte-for-byte
reproducible from them), and each branch produces exactly the template
stated: the fixed no-action message for `Match`; the
confirm-before-end-of-day message citing the ADP (source-A) value when
the Amazon (source-B) minutes are absent; the symmetric message with
the 5 PM cutoff citing the Amazon value when the ADP minutes are
absent under `Missing Entry`; and for the remaining severities a
message identifying the longer and shorter source by the sign of the
delta, stating both minute values and the absolute delta, and asking
for correction by end of day. -/
theorem c4_script :
    (∀ r₁ r₂ : DiscRecord,
      adpNameOf r₁.m = adpNameOf r₂.m → amzNameOf r₁.m = amzNameOf r₂.m →
      r₁.severity = r₂.severity → amzMinOf r₁.m = amzMinOf r₂.m →
      adpMinOf r₁.m = adpMinOf r₂.m → r₁.diff_minutes = r₂.diff_minutes →
      build_script r₁ = build_script r₂) ∧
    (∀ r : DiscRecord, r.severity = "Match" →
      build_script r = "No action needed - break times match.") ∧
    (∀ r : DiscRecord, r.severity = "Missing Entry" → amzMinOf r.m = none →
      build_script r =
        "Hi " ++ empName r.m ++ ", I see you have a break logged in ADP (" ++
          fmt0 (adpMinOf r.m) ++
          " min) but we have no record in the Amazon Delivery App. " ++
          "Did you log your break in the app today? Please update it before end of day.") ∧
    (∀ (r : DiscRecord) (a : ℚ), r.severity = "Missing Entry" → amzMinOf r.m = some a →
      build_script r =
        "Hi " ++ empName r.m ++ ", we have your break in the Amazon app (" ++
          fmt0 (some a) ++ " min) but there is no matching entry in ADP. " ++
          "Can you log your break in ADP before 5 PM today?") ∧
    (∀ (r : DiscRecord) (v : ℚ), r.severity ≠ "Match" → r.severity ≠ "Missing Entry" →
      r.diff_minutes = some v → 0 < v →
      build_script r =
        "Hi " ++ empName r.m ++
          ", we noticed a discrepancy in your break times today - your " ++
          "Amazon app" ++ " shows " ++ fmt0 (some |v|) ++ " more minutes than your " ++
          "ADP" ++ ". Amazon recorded " ++ fmt0 (amzMinOf r.m) ++
          " min and ADP recorded " ++ fmt0 (adpMinOf r.m) ++
          " min. Please review both entries and correct whichever is inaccurate by end of day.") ∧
    (∀ (r : DiscRecord) (v : ℚ), r.severity ≠ "Match" → r.severity ≠ "Missing Entry" →
      r.diff_minutes = some v → v < 0 →
      build_script r =
        "Hi " ++ empName r.m ++
          ", we noticed a discrepancy in your break times today - your " ++
          "ADP" ++ " shows " ++ fmt0 (some |v|) ++ " more minutes than your " ++
          "Amazon app" ++ ". Amazon recorded " ++ fmt0 (amzMinOf r.m) ++
          " min and ADP recorded " ++ fmt0 (adpMinOf r.m) ++
          " min. Please review both entries and correct whichever is inaccurate by end of day.") := by
  refine ⟨?_, ?_, ?_, ?_, ?_, ?_⟩
  · intro r₁ r₂ h1 h2 h3 h4 h5 h6
    have he : empName r₁.m = empName r₂.m := by
      unfold empName
      rw [h1, h2]
    simp only [build_script]
    rw [he, h3, h4, h5, h6]
  · intro r h
    simp [build_script, h]
  · intro r h ha
    simp [build_script, h, ha]
  · intro r a h ha
    simp [build_script, h, ha]
  · intro r v hM hMi hd hv
    simp [build_script, hM, hMi, hd, diffPos, hv]
  · intro r v hM hMi hd hv
    have hnp : ¬ (0 : ℚ) < v := not_lt.mpr hv.le
    simp [build_script, hM, hMi, hd, diffPos, hnp]

/-! ### C2 — matcher equivalence with its claimed characterization -/

theorem overlap_nonneg (na nb : String) : 0 ≤ _overlap_score na nb := by
  unfold _overlap_score
  dsimp only
  split_ifs
  · exact le_refl 0
  · exact div_nonneg (Nat.cast_nonneg _) (le_max_of_le_left (Nat.cast_nonneg _))

theorem le_foldr_max (l : List ℚ) (x : ℚ) : x ≤ l.foldr max x := by
  induction l with
  | nil => exact le_refl x
  | cons a l ih => exact le_trans ih (le_max_right a _)

theorem foldr_max_shift (l : List ℚ) (x y : ℚ) (h : y ≤ x) :
    l.foldr max x = max x (l.foldr max y) := by
  induction l with
  | nil => rw [List.foldr_nil, List.foldr_nil, max_eq_left h]
  | cons a l ih =>
    simp only [List.foldr_cons]
    rw [ih, max_left_comm]

theorem bestLoop_char (a : AdpRecord) :
    ∀ (bs : List AmzRecord) (i : ℕ) (s₀ : ℚ) (o : Option ℕ),
      bestLoop a bs i (s₀, o) =
        ((bs.map (scoreOf a)).foldr max s₀,
         if s₀ < (bs.map (scoreOf a)).foldr max s₀ then
           some (i + bs.findIdx (fun b => decide ((bs.map (scoreOf a)).foldr max s₀ ≤ scoreOf a b)))
         else o) := by
  intro bs
  induction bs with
  | nil =>
    intro i s₀ o
    simp [bestLoop]
  | cons b bs ih =>
    intro i s₀ o
    rw [bestLoop]
    dsimp only
    by_cases hc : s₀ < scoreOf a b
    · rw [if_pos hc, ih (i + 1) (scoreOf a b) (some i)]
      have hsle : scoreOf a b ≤ (bs.map (scoreOf a)).foldr max (scoreOf a b) :=
        le_foldr_max _ _
      have hshift : (bs.map (scoreOf a)).foldr max (scoreOf a b) =
          max (scoreOf a b) ((bs.map (scoreOf a)).foldr max s₀) :=
        foldr_max_shift _ _ _ (le_of_lt hc)
      simp only [List.map_cons, List.foldr_cons]
      simp only [← hshift]
      have hs₀Fb : s₀ < (bs.map (scoreOf a)).foldr max (scoreOf a b) :=
        lt_of_lt_of_le hc hsle
      rw [if_pos hs₀Fb]
      by_cases hbb : scoreOf a b < (bs.map (scoreOf a)).foldr max (scoreOf a b)
      · rw [if_pos hbb, List.findIdx_cons]
        have hpb : ¬ ((bs.map (scoreOf a)).foldr max (scoreOf a b) ≤ scoreOf a b) :=
          not_le.mpr hbb
        simp [hpb]
        omega
      · rw [if_neg hbb, List.findIdx_cons]
        have hpb : (bs.map (scoreOf a)).foldr max (scoreOf a b) ≤ scoreOf a b :=
          not_lt.mp hbb
        simp [hpb]
    · rw [if_neg hc, ih (i + 1) s₀ o]
      have hsbs₀ : scoreOf a b ≤ s₀ := not_lt.mp hc
      have hs₀F : s₀ ≤ (bs.map (scoreOf a)).foldr max s₀ := le_foldr_max _ _
      have hmax : max (scoreOf a b) ((bs.map (scoreOf a)).foldr max s₀) =
          (bs.map (scoreOf a)).foldr max s₀ :=
        max_eq_right (le_trans hsbs₀ hs₀F)
      simp only [List.map_cons, List.foldr_cons]
      simp only [hmax]
      by_cases h0 : s₀ < (bs.map (scoreOf a)).foldr max s₀
      · rw [if_pos h0, if_pos h0, List.findIdx_cons]
        have hpb : ¬ ((bs.map (scoreOf a)).foldr max s₀ ≤ scoreOf a b) :=
          not_le.mpr (lt_of_le_of_lt hsbs₀ h0)
        simp [hpb]
        omega
      · rw [if_neg h0, if_neg h0]


theorem bestLoop_zero (a : AdpRecord) (amz : List AmzRecord) :
    bestLoop a amz 0 (0, none) =
      (bestScoreSpec a amz,
       if 0 < bestScoreSpec a amz then some (bestIdxSpec a amz) else none) := by
  rw [bestLoop_char a amz 0 0 none]
  simp only [bestScoreSpec, bestIdxSpec]
  simp

theorem matchRow_eq (amz : List AmzRecord) (a : AdpRecord) :
    matchRow amz a =
      ((if 33/100 ≤ bestScoreSpec a amz then
          { adp := some a, amz := amz[bestIdxSpec a amz]?,
            match_score := pyRound (bestScoreSpec a amz) 2 }
        else { adp := some a, amz := none, match_score := 0 }),
       (if 33/100 ≤ bestScoreSpec a amz then some (bestIdxSpec a amz) else none)) := by
  unfold matchRow
  rw [bestLoop_zero]
  by_cases h0 : (0 : ℚ) < bestScoreSpec a amz
  · rw [if_pos h0]
    dsimp only
    by_cases hT : 33/100 ≤ bestScoreSpec a amz
    · rw [if_pos hT, if_pos hT, if_pos hT]
    · rw [if_neg hT, if_neg hT, if_neg hT]
  · rw [if_neg h0]
    dsimp only
    have hT : ¬ 33/100 ≤ bestScoreSpec a amz := by
      intro h
      exact h0 (lt_of_lt_of_le (by norm_num) h)
    rw [if_neg hT, if_neg hT]

theorem mem_used_iff (adp_df : List AdpRecord) (amz : List AmzRecord) (j : ℕ) :
    j ∈ (adp_df.map (matchRow amz)).filterMap Prod.snd ↔ claimedSpec adp_df amz j := by
  rw [List.filterMap_map, List.mem_filterMap]
  unfold claimedSpec
  apply exists_congr
  intro a
  apply and_congr_right
  intro _
  rw [Function.comp_apply]
  rw [show (matchRow amz a).2 =
      (if 33/100 ≤ bestScoreSpec a amz then some (bestIdxSpec a amz) else none) from
    congrArg Prod.snd (matchRow_eq amz a)]
  split_ifs with hT
  · simp [hT]
  · simp [hT]

/-- C2 (amended): the matcher behaves exactly as the claim describes —
each source-A record is processed in order, scored against every
source-B record (claimed or not), the highest-scoring source-B record
is kept with ties to the first encountered, a pair is emitted exactly
when the best score reaches `0.33` with that score **rounded to two
decimal places**, a source-A-only record with score `0` otherwise, and
afterwards one source-B-only record with score `0` for every source-B
record never claimed. -/
theorem c2_matcher_amended :
    ∀ (adp_df : List AdpRecord) (amazon_df : List AmzRecord),
      match_employees adp_df amazon_df = match_spec adp_df amazon_df := by
  intro adp_df amazon_df
  simp only [match_employees, match_spec]
  congr 1
  · rw [List.map_map]
    apply List.map_congr_left
    intro a _
    rw [Function.comp_apply, congrArg Prod.fst (matchRow_eq amazon_df a)]
  · congr 1
    apply List.filter_congr
    intro p _
    rw [decide_eq_decide]
    exact not_congr (mem_used_iff adp_df amazon_df p.1)

/-! ### C1 — output ordering -/

theorem optLe_refl (o : Option String) : optLe o o := by
  cases o
  · trivial
  · exact le_refl _

theorem rowLe_of_keyOf_eq {a b : DiscRecord} (h : keyOf a = keyOf b) : rowLe a b := by
  have h1 : rankOf a = rankOf b := congrArg Prod.fst h
  have h2 : sortName a = sortName b := congrArg Prod.snd h
  exact Or.inr ⟨h1, h2 ▸ optLe_refl (sortName a)⟩

theorem filter_orderedInsert_key_eq (k : ℕ × Option String) (a : DiscRecord)
    (l : List DiscRecord) (ha : keyOf a = k) :
    (l.orderedInsert rowLe a).filter (fun d => decide (keyOf d = k)) =
      a :: l.filter (fun d => decide (keyOf d = k)) := by
  induction l with
  | nil => simp [List.orderedInsert, ha]
  | cons b l ih =>
    rw [List.orderedInsert]
    by_cases hr : rowLe a b
    · rw [if_pos hr]
      simp [List.filter_cons, ha]
    · rw [if_neg hr]
      have hb : ¬ (keyOf b = k) := by
        intro hbk
        exact hr (rowLe_of_keyOf_eq (ha.trans hbk.symm))
      simp [List.filter_cons, hb, ih]

theorem filter_orderedInsert_key_ne (k : ℕ × Option String) (a : DiscRecord)
    (l : List DiscRecord) (ha : ¬ (keyOf a = k)) :
    (l.orderedInsert rowLe a).filter (fun d => decide (keyOf d = k)) =
      l.filter (fun d => decide (keyOf d = k)) := by
  induction l with
  | nil => simp [List.orderedInsert, ha]
  | cons b l ih =>
    rw [List.orderedInsert]
    by_cases hr : rowLe a b
    · rw [if_pos hr]
      simp [List.filter_cons, ha]
    · rw [if_neg hr]
      simp [List.filter_cons, ih]

/-- Stability of the embedded sort: for every value of the sort key,
the sublist of records carrying that key is unchanged by the sort. -/
theorem filter_insertionSort_key (k : ℕ × Option String) (l : List DiscRecord) :
    (l.insertionSort rowLe).filter (fun d => decide (keyOf d = k)) =
      l.filter (fun d => decide (keyOf d = k)) := by
  induction l with
  | nil => rfl
  | cons a l ih =>
    rw [List.insertionSort]
    by_cases ha : keyOf a = k
    · rw [filter_orderedInsert_key_eq k a _ ha, ih, List.filter_cons]
      simp [ha]
    · rw [filter_orderedInsert_key_ne k a _ ha, ih, List.filter_cons]
      simp [ha]

/-- C1 (amended): the pipeline output is stable-sorted by
(severity rank, **source-A name** ascending, with records whose
source-A name is absent placed after all records that have one within
their severity group — the source-B name is *not* used as a sort
fallback): the output is sorted by that key, it is a permutation of
the classified records, records with equal keys keep their relative
order, the severity ranks are Major 0 < Moderate 1 < Minor 2 <
MissingEntry 3 < Match 4, and each output row carries the script built
from its own record. -/
theorem c1_sort_amended :
    ∀ (adp_df : List AdpRecord) (amazon_df : List AmzRecord),
      ((run_analysis_core adp_df amazon_df).map OutRow.disc).Sorted rowLe ∧
      ((run_analysis_core adp_df amazon_df).map OutRow.disc).Perm
        (calculate_discrepancies (match_employees adp_df amazon_df)) ∧
      (∀ k : ℕ × Option String,
        ((run_analysis_core adp_df amazon_df).map OutRow.disc).filter
            (fun d => decide (keyOf d = k)) =
          (calculate_discrepancies (match_employees adp_df amazon_df)).filter
            (fun d => decide (keyOf d = k))) ∧
      (sevRank "Major" = 0 ∧ sevRank "Moderate" = 1 ∧ sevRank "Minor" = 2 ∧
        sevRank "Missing Entry" = 3 ∧ sevRank "Match" = 4) ∧
      (∀ r ∈ run_analysis_core adp_df amazon_df,
        r.conversation_script = build_script r.disc) := by
  intro adp_df amazon_df
  have hmap : (run_analysis_core adp_df amazon_df).map OutRow.disc =
      (calculate_discrepancies (match_employees adp_df amazon_df)).insertionSort rowLe := by
    simp only [run_analysis_core, List.map_map]
    have hid : OutRow.disc ∘
        (fun d => { disc := d, conversation_script := build_script d } : DiscRecord → OutRow) =
        id := funext fun _ => rfl
    rw [hid, List.map_id]
  refine ⟨?_, ?_, ?_, ⟨rfl, rfl, rfl, rfl, rfl⟩, ?_⟩
  · rw [hmap]
    exact List.sorted_insertionSort rowLe _
  · rw [hmap]
    exact List.perm_insertionSort rowLe _
  · intro k
    rw [hmap]
    exact filter_insertionSort_key k _
  · intro r hr
    simp only [run_analysis_core, List.mem_map] at hr
    obtain ⟨d, _, rfl⟩ := hr
    rfl

/-- When all three columns are `float64` (each holds at least one
numeric value), the machine-level script generator never raises and
agrees with the row-level `build_script`. -/
theorem build_script_px_float (r : DiscRecord) :
    build_script_px true true true r = .ok (build_script r) := by
  simp only [build_script_px, build_script]
  split_ifs <;>
    first
      | rfl
      | exact absurd ‹(r.diff_minutes.isNone && !true) = true› (by simp)
      | (rcases adpMinOf r.m with _ | q <;> rfl)
      | (rcases amzMinOf r.m with _ | q <;> rfl)
      | (rcases r.diff_minutes with _ | d <;> rcases amzMinOf r.m with _ | a <;>
          rcases adpMinOf r.m with _ | b <;> rfl)

/-! ### Concrete evaluations — counterexamples and witnesses

Batteries marks the `Rat` field operations `@[irreducible]`, which
keeps `decide` from evaluating concrete rational arithmetic.  The
concrete inputs below are tiny, so the default reducibility is
restored here (after the abstract development above) to let `decide`
evaluate the embedded pipeline on them. -/

set_option allowUnsafeReducibility true in
attribute [semireducible] Rat.add Rat.mul Rat.inv Rat.sub Rat.div

/-! ### C6 — tokenizer scenario -/

/-- C6 counterexample: the tokenizer does not produce `{"johnsmith"}`
for `"JohnSmith99"`; the camel-case boundary inside `"JohnSmith99"` is
split first, so the token set is `{"john", "smith"}`. -/
theorem c6_claim_counterexample :
    _name_tokens "JohnSmith99" ≠ ({"johnsmith"} : Finset String) := by
  decide

/-- C6 (amended): for the names `"John Smith"` (source A) and
`"JohnSmith99"` (source B) the tokenizer produces the token set
`{"john", "smith"}` for both names (camel-case splitting applies to
`"JohnSmith99"` as well); both source-A tokens are substring-matched,
the score is `2 / max 2 2 = 1.0 ≥ 0.33`, and the matcher pairs the two
records. -/
theorem c6_scenario_amended :
    _name_tokens "John Smith" = ({"john", "smith"} : Finset String) ∧
    _name_tokens "JohnSmith99" = ({"john", "smith"} : Finset String) ∧
    _token_matches (_name_tokens "John Smith") (_name_tokens "JohnSmith99") = 2 ∧
    _overlap_score "John Smith" "JohnSmith99" = (2 : ℚ) / (max 2 2 : ℚ) ∧
    (33 : ℚ)/100 ≤ _overlap_score "John Smith" "JohnSmith99" ∧
    match_employees [johnAdp] [johnAmz] =
      [{ adp := some johnAdp, amz := some johnAmz, match_score := 1 }] := by
  decide

/-! ### C2 — matcher behaviour (counterexample part) -/

/-- C2 counterexample: for source A `"Abc Qrs Xyz"` against source B
`"Abc"`, the best score is `1/3 ≥ 0.33`, but the emitted record stores
the score rounded to two decimal places, `0.33 ≠ 1/3` — the claim's
"emits the pair with that score" does not hold verbatim. -/
theorem c2_claim_counterexample :
    bestScoreSpec abcAdp [abcAmz] = 1/3 ∧
    (33 : ℚ)/100 ≤ 1/3 ∧
    (match_employees [abcAdp] [abcAmz]).map MatchedRecord.match_score = [33/100] ∧
    (33 : ℚ)/100 ≠ 1/3 := by
  decide

/-- C5 counterexample: after `run_analysis` has run on the single ADP
record `"Zed"` (and no Amazon records), the matcher's output object is
no longer equal to its original value — `calculate_discrepancies` and
the `_sort` assignment added columns to it in place. -/
theorem c5_claim_counterexample :
    merged_after_run [zedAdp] [] ≠ matchFrame [zedAdp] [] := by
  decide

/-- C9 witness. -/
theorem c9_side_present_witness :
    ({ adp := some zedAdp, amz := none, match_score := 0 } : MatchedRecord) ∈
        match_employees [zedAdp] [aaronAmz] ∧
      (({ adp := some zedAdp, amz := none, match_score := 0 } : MatchedRecord).adp.isSome ∨
        ({ adp := some zedAdp, amz := none, match_score := 0 } : MatchedRecord).amz.isSome) :=
  ⟨by decide, c9_side_present [zedAdp] [aaronAmz] _ (by decide)⟩

/-- C8 witness. -/
theorem c8_score_threshold_witness :
    ({ adp := some abcAdp, amz := some abcAmz, match_score := 33/100 } : MatchedRecord) ∈
        match_employees [abcAdp] [abcAmz] ∧
      (({ adp := some abcAdp, amz := some abcAmz, match_score := 33/100 } : MatchedRecord).match_score = 0 ∨
        33/100 ≤ ({ adp := some abcAdp, amz := some abcAmz, match_score := 33/100 } : MatchedRecord).match_score) :=
  ⟨by decide, c8_score_threshold [abcAdp] [abcAmz] _ (by decide)⟩

set_option maxRecDepth 8000 in
/-- C10 witness. -/
theorem c10_delta_missing_iff_witness :
    zedOut ∈ run_analysis_core [zedAdp] [] ∧ zedOut.disc.direction ≠ "-" :=
  ⟨by decide, c10_delta_missing_iff.2 [zedAdp] [] zedOut (by decide)⟩

set_option maxRecDepth 8000 in
/-- Example instance of `pipeline_fields_enumerated` on a concrete run. -/
theorem pipeline_fields_enumerated_example :
    zedOut ∈ run_analysis_core [zedAdp] [] ∧
      ((zedOut.disc.severity = "Match" ∨ zedOut.disc.severity = "Minor" ∨
        zedOut.disc.severity = "Moderate" ∨ zedOut.disc.severity = "Major" ∨
        zedOut.disc.severity = "Missing Entry") ∧
       (zedOut.disc.direction = "Match" ∨ zedOut.disc.direction = "Amazon > ADP" ∨
        zedOut.disc.direction = "ADP > Amazon" ∨
        zedOut.disc.direction = "Warning Missing") ∧
       ((amzMinOf zedOut.disc.m = none ∨ adpMinOf zedOut.disc.m = none) →
         zedOut.disc.severity = "Missing Entry") ∧
       zedOut.conversation_script ≠ "") :=
  ⟨by decide, pipeline_fields_enumerated [zedAdp] [] zedOut (by decide)⟩

set_option maxRecDepth 8000 in
/-- C4 witness. -/
theorem c4_script_witness :
    (classifyRow pairEqual).severity = "Match" ∧
      build_script (classifyRow pairEqual) = "No action needed - break times match." :=
  ⟨by decide, c4_script.2.1 (classifyRow pairEqual) (by decide)⟩

/-- C1 counterexample: for source A `[Zed]` (no break minutes) and
source B `[Aaron]`, both records classify as `Missing Entry`
(severity rank 3), and the pipeline outputs Zed before Aaron, yet the
claimed display-name order (source-B name standing in for an absent
source-A name) requires `"Aaron" < "Zed"` first: the output is not
sorted by the claimed key, because the code sorts only by the
ADP-name column with missing names last. -/
theorem c1_claim_counterexample :
    (run_analysis_core [zedAdp] [aaronAmz]).map (fun r => dispName r.disc) =
      [some "Zed", some "Aaron"] ∧
    (run_analysis_core [zedAdp] [aaronAmz]).map (fun r => rankOf r.disc) = [3, 3] ∧
    ¬ ((run_analysis_core [zedAdp] [aaronAmz]).map OutRow.disc).Sorted claimRel := by
  refine ⟨by decide, by decide, ?_⟩
  intro hs
  have hzd : (run_analysis_core [zedAdp] [aaronAmz]).map OutRow.disc =
      [classifyRow zedRow,
       classifyRow { adp := none, amz := some aaronAmz, match_score := 0 }] := by
    decide
  rw [hzd] at hs
  have hrel : claimRel (classifyRow zedRow)
      (classifyRow { adp := none, amz := some aaronAmz, match_score := 0 }) :=
    (List.sorted_cons.mp hs).1 _ (List.mem_singleton.mpr rfl)
  rcases hrel with hlt | ⟨heq, hle⟩
  · have h1 : rankOf (classifyRow zedRow) = 3 := by decide
    have h2 : rankOf
        (classifyRow { adp := none, amz := some aaronAmz, match_score := 0 }) = 3 := by
      decide
    rw [h1, h2] at hlt
    exact absurd hlt (by decide)
  · have h3 : dispName (classifyRow zedRow) = some "Zed" := by decide
    have h4 : dispName
        (classifyRow { adp := none, amz := some aaronAmz, match_score := 0 }) =
        some "Aaron" := by
      decide
    rw [h3, h4] at hle
    have hAZ : ("Aaron" : String) < "Zed" := by
      rw [String.lt_iff_toList_lt]
      decide
    exact absurd hle (not_le.mpr hAZ)

set_option maxRecDepth 8000 in
/-- C1 witness. -/
theorem c1_sort_amended_witness :
    zedOut ∈ run_analysis_core [zedAdp] [] ∧
      zedOut.conversation_script = build_script zedOut.disc :=
  ⟨by decide, (c1_sort_amended [zedAdp] []).2.2.2.2 zedOut (by decide)⟩

/-- C7: the claim fails on the code.  For the single source-A record
`"Zed"` with no break minutes and no source-B records, every minutes
column of the merged frame is all-`None` (`object` dtype), the record
classifies as `Missing Entry`, and `build_script` then formats the
`None` ADP value with `f"{b_m:.0f}"`, raising a `TypeError` instead of
completing. -/
theorem c7_failing_input :
    run_analysis_px [zedAdp] [] =
      .error "TypeError: unsupported format string passed to NoneType.__format__" := by
  decide
